import Mathlib

/-!
Verification of the orb8 per-node observability agent.

This file gives a shallow embedding, in Lean 4, of the parts of the orb8
repository that the verified properties talk about:

* `orb8-common/src/lib.rs` — the `NetworkFlowEvent` record;
* `orb8-probes/src/network_probe.rs` — the TC packet classifier;
* `orb8-agent/src/k8s_watcher.rs` — `parse_ipv4`;
* `orb8-agent/src/aggregator.rs` — `FlowStats`, `FlowKey`, `FlowAggregator`
  (`process_event`, `get_flows`, `expire_old_flows`) and `format_ipv4`;
* `orb8-agent/src/pod_cache.rs` — `PodCache` (the `by_ip` half of the cache is
  called from `main.rs`/`k8s_watcher.rs` but its implementation is absent from
  the sources; it is modelled from the specification, as marked below);
* `orb8-agent/src/grpc_server.rs` — `query_flows`, `get_status`;
* `orb8-agent/src/probe_loader.rs` — `poll_events`;
* `orb8-agent/src/main.rs` — the event loop (self-traffic filter, IP-based
  broadcast enrichment).

Machine integers are modelled as `Nat`, with an explicit `% 2 ^ w` wherever the
Rust code can wrap.  Rust `Instant` values are modelled as `Nat` nanosecond
counts and passed explicitly wherever the code calls `Instant::now()`; the
kernel clock `bpf_ktime_get_ns()` is likewise an explicit parameter.  Rust
strings that the code only ever builds and compares are Lean `String`s, while
the strings that `parse_ipv4` / `format_ipv4` traverse character by character
are `List Char`.  Because `namespace` is a Lean keyword, the Rust field
`namespace` is consistently named `podNamespace` here.
-/

set_option maxRecDepth 10000

namespace Orb8

/-! ### orb8-common/src/lib.rs -/

/-- `NetworkFlowEvent` from `orb8-common/src/lib.rs`: the fixed 32-byte record
shared between the kernel classifier and user space.  Field widths in the
source: `u64, u64, u32, u32, u16, u16, u8, u8, u16`. -/
structure NetworkFlowEvent where
  timestampNs : Nat
  cgroupId : Nat
  srcIp : Nat
  dstIp : Nat
  srcPort : Nat
  dstPort : Nat
  protocol : Nat
  direction : Nat
  packetLen : Nat
deriving DecidableEq

/-- `direction::INGRESS` from `orb8-common/src/lib.rs`. -/
def INGRESS : Nat := 0

/-- `direction::EGRESS` from `orb8-common/src/lib.rs`. -/
def EGRESS : Nat := 1

/-- `protocol::TCP` from `orb8-common/src/lib.rs`. -/
def TCP : Nat := 6

/-- `protocol::UDP` from `orb8-common/src/lib.rs`. -/
def UDP : Nat := 17

/-! ### orb8-probes/src/network_probe.rs -/

/-- `TC_ACT_OK`: the kernel traffic-control verdict that passes the packet on. -/
def TC_ACT_OK : Int := 0

/-- `ETH_HLEN` from `network_probe.rs`. -/
def ETH_HLEN : Nat := 14

/-- `ETH_P_IP` from `network_probe.rs`. -/
def ETH_P_IP : Nat := 0x0800

/-- `IP_HLEN_MIN` from `network_probe.rs`. -/
def IP_HLEN_MIN : Nat := 20

/-- The TC context seen by the classifier: `data` is the linear byte region
between `ctx.data()` and `ctx.data_end()`, and `len` is `ctx.len()`. -/
structure TcCtx where
  data : List Nat
  len : Nat

/-- Value of a byte list read little-endian (least-significant byte first),
as `u32::from_le_bytes` / a native-endian load on a little-endian host. -/
def leVal (bs : List Nat) : Nat := bs.foldr (fun b acc => b + 256 * acc) 0

/-- Value of a byte list read big-endian, as `u16::from_be_bytes`. -/
def beVal (bs : List Nat) : Nat := bs.foldl (fun acc b => 256 * acc + b) 0

/-- `ptr_at::<T>(ctx, offset)` from `network_probe.rs`: a bounds-checked read of
`size` bytes at `offset`; fails (`Err(())`) iff `start + offset + len > end`. -/
def ptrAt (ctx : TcCtx) (offset size : Nat) : Option (List Nat) :=
  if offset + size ≤ ctx.data.length then some ((ctx.data.drop offset).take size)
  else none

/-- A one-byte bounds-checked read (`ptr_at::<u8>`). -/
def readByte (ctx : TcCtx) (offset : Nat) : Option Nat :=
  (ptrAt ctx offset 1).map leVal

/-- A two-byte bounds-checked big-endian read
(`ptr_at::<[u8; 2]>` followed by `u16::from_be_bytes`). -/
def readBE16 (ctx : TcCtx) (offset : Nat) : Option Nat :=
  (ptrAt ctx offset 2).map beVal

/-- A four-byte bounds-checked native-endian read (`ptr_at::<u32>` and the
dereference; the hosts in scope are little-endian). -/
def readLE32 (ctx : TcCtx) (offset : Nat) : Option Nat :=
  (ptrAt ctx offset 4).map leVal

/-- `try_network_probe(ctx, dir)` from `network_probe.rs`.  `ts` stands for the
`bpf_ktime_get_ns()` sample and `reserveOk` for whether `EVENTS.reserve`
succeeds (the ring is not full).  The result is `none` for `Err(())` (a failed
bounds check) and otherwise the returned verdict paired with the record
submitted to the ring, if any.  `cgroup_id` is hardwired to 0 in the source
because the helper is unavailable in the TC context. -/
def tryNetworkProbe (ctx : TcCtx) (dir ts : Nat) (reserveOk : Bool) :
    Option (Int × Option NetworkFlowEvent) :=
  if ctx.len < ETH_HLEN + IP_HLEN_MIN then some (TC_ACT_OK, none)
  else match readBE16 ctx 12 with
  | none => none
  | some ethertype =>
    if ethertype ≠ ETH_P_IP then some (TC_ACT_OK, none)
    else match readByte ctx ETH_HLEN with
    | none => none
    | some versionIhl =>
      -- `ip_header_len` is `versionIhl % 16 * 4` (low nibble times 4) and
      -- `transport_offset` is `ETH_HLEN + versionIhl % 16 * 4`, inlined here.
      if versionIhl % 16 * 4 < IP_HLEN_MIN then some (TC_ACT_OK, none)
      else match readByte ctx (ETH_HLEN + 9), readLE32 ctx (ETH_HLEN + 12),
          readLE32 ctx (ETH_HLEN + 16) with
      | some proto, some srcIp, some dstIp =>
        match (if proto = TCP ∨ proto = UDP then
            match readBE16 ctx (ETH_HLEN + versionIhl % 16 * 4),
                readBE16 ctx (ETH_HLEN + versionIhl % 16 * 4 + 2) with
            | some sport, some dport => some (sport, dport)
            | _, _ => none
          else some ((0 : Nat), (0 : Nat))) with
        | none => none
        | some ports =>
          some (TC_ACT_OK,
            if reserveOk then
              some { timestampNs := ts, cgroupId := 0, srcIp := srcIp, dstIp := dstIp,
                     srcPort := ports.1, dstPort := ports.2, protocol := proto,
                     direction := dir, packetLen := ctx.len % 65536 }
            else none)
      | _, _, _ => none

/-- The `network_probe` (ingress) classifier entry point: `Err(_)` from
`try_network_probe` is turned into `TC_ACT_OK`, and in that case nothing was
submitted. -/
def networkProbe (ctx : TcCtx) (ts : Nat) (reserveOk : Bool) :
    Int × Option NetworkFlowEvent :=
  match tryNetworkProbe ctx INGRESS ts reserveOk with
  | some r => r
  | none => (TC_ACT_OK, none)

/-- The `network_probe_egress` classifier entry point. -/
def networkProbeEgress (ctx : TcCtx) (ts : Nat) (reserveOk : Bool) :
    Int × Option NetworkFlowEvent :=
  match tryNetworkProbe ctx EGRESS ts reserveOk with
  | some r => r
  | none => (TC_ACT_OK, none)

/-! ### parse_ipv4 (orb8-agent/src/k8s_watcher.rs) and
format_ipv4 (orb8-agent/src/aggregator.rs) -/

/-- Rust's `str::split('.')`, over the character list of the string.
Splitting the empty string yields one empty part, and a trailing separator
yields a trailing empty part, exactly as in Rust. -/
def splitDot : List Char → List (List Char)
  | [] => [[]]
  | c :: rest =>
    if c = '.' then [] :: splitDot rest
    else
      match splitDot rest with
      | [] => [[c]]
      | g :: gs => (c :: g) :: gs

/-- Rust's `str::parse::<u8>()`: an optional leading `'+'`, then one or more
decimal digits, value at most 255; anything else is an error (`none`). -/
def parseU8 (s : List Char) : Option Nat :=
  let t := match s with
    | '+' :: rest => rest
    | _ => s
  if t = [] then none
  else if t.all (fun c => c.isDigit) then
    let v := t.foldl (fun acc c => 10 * acc + (c.toNat - 48)) 0
    if v ≤ 255 then some v else none
  else none

/-- `parse_ipv4` from `k8s_watcher.rs`: split on `'.'`, `filter_map` the octet
parses, require exactly four surviving octets, and pack them with
`u32::from_le_bytes` — first octet in the least-significant byte. -/
def parseIpv4 (s : List Char) : Option Nat :=
  match (splitDot s).filterMap parseU8 with
  | [a, b, c, d] => some (a + 256 * b + 65536 * c + 16777216 * d)
  | _ => none

/-- `format_ipv4` from `aggregator.rs`: render `ip & 0xFF`, `(ip >> 8) & 0xFF`,
`(ip >> 16) & 0xFF`, `(ip >> 24) & 0xFF` in decimal, joined by dots. -/
def formatIpv4 (ip : Nat) : List Char :=
  Nat.toDigits 10 (ip % 256) ++ '.' :: Nat.toDigits 10 (ip / 256 % 256) ++
    '.' :: Nat.toDigits 10 (ip / 65536 % 256) ++
    '.' :: Nat.toDigits 10 (ip / 16777216 % 256)

/-- A canonical dotted-quad string built from four octet values: each octet in
plain decimal (no leading zeros, no sign), joined by dots.  This is the shape
of every valid dotted-quad string in the round-trip property. -/
def dottedQuad (a b c d : Nat) : List Char :=
  Nat.toDigits 10 a ++ '.' :: Nat.toDigits 10 b ++ '.' :: Nat.toDigits 10 c ++
    '.' :: Nat.toDigits 10 d

/-! ### orb8-agent/src/pod_cache.rs -/

/-- `PodMetadata` from `pod_cache.rs`.  The `pod_ip` field appears on the
values constructed in `k8s_watcher.rs` (spec: "optional pod IP (same encoding
as FlowEvent IPs)"). -/
structure PodMetadata where
  podNamespace : String
  podName : String
  podUid : String
  containerName : String
  containerId : String
  podIp : Option Nat
deriving DecidableEq

/-- Insertion into a map modelled as an association list: overwrite any prior
value at the key (`DashMap::insert`). -/
def assocInsert {α β : Type} [DecidableEq α] (m : List (α × β)) (k : α) (v : β) :
    List (α × β) :=
  (k, v) :: m.filter (fun p => p.1 ≠ k)

/-- Lookup in a map modelled as an association list (`DashMap::get`). -/
def assocGet {α β : Type} [DecidableEq α] (m : List (α × β)) (k : α) : Option β :=
  (m.find? (fun p => p.1 = k)).map Prod.snd

/-- `PodCache`: the concurrent pod-metadata cache.  `byCgroup` is the
`inner` map of `pod_cache.rs` (cgroup id → metadata).

Modelled from the spec: the `by_ip` map (pod IP → metadata).  `main.rs` calls
`pod_cache.get_by_ip(..)` and `k8s_watcher.rs` calls `insert_by_ip`, but the
implementation of the IP half is missing from the sources; the spec specifies
"two independent concurrent mappings with the same value type". -/
structure PodCache where
  byCgroup : List (Nat × PodMetadata)
  byIp : List (Nat × PodMetadata)

/-- `PodCache::new()`: both maps empty. -/
def PodCache.empty : PodCache := ⟨[], []⟩

/-- `PodCache::insert(cgroup_id, metadata)` from `pod_cache.rs`. -/
def PodCache.insert (c : PodCache) (cgroupId : Nat) (meta : PodMetadata) : PodCache :=
  { c with byCgroup := assocInsert c.byCgroup cgroupId meta }

/-- `PodCache::get(cgroup_id)` from `pod_cache.rs`. -/
def PodCache.get (c : PodCache) (cgroupId : Nat) : Option PodMetadata :=
  assocGet c.byCgroup cgroupId

/-- Modelled from the spec: `insert_by_ip(pod_ip, meta)` — "overwrites any
prior value" in the `by_ip` map.  (Called from `k8s_watcher.rs`; its
implementation is missing from the sources.) -/
def PodCache.insertByIp (c : PodCache) (ip : Nat) (meta : PodMetadata) : PodCache :=
  { c with byIp := assocInsert c.byIp ip meta }

/-- Modelled from the spec: `get_by_ip(ip)` — "returns a cloned snapshot or
none".  (Called from `main.rs`; its implementation is missing from the
sources.) -/
def PodCache.getByIp (c : PodCache) (ip : Nat) : Option PodMetadata :=
  assocGet c.byIp ip

/-- `PodCache::remove_pod(pod_uid)` from `pod_cache.rs`: retain only entries
whose `pod_uid` differs.  The spec extends the sweep to "every entry (in
either map)", so the spec-modelled `by_ip` map is swept the same way. -/
def PodCache.removePod (c : PodCache) (podUid : String) : PodCache :=
  { byCgroup := c.byCgroup.filter (fun p => p.2.podUid ≠ podUid),
    byIp := c.byIp.filter (fun p => p.2.podUid ≠ podUid) }

/-- One mutation of the pod cache, as performed by the watcher loop. -/
inductive PodCacheOp where
  | insertCg : Nat → PodMetadata → PodCacheOp
  | insertIp : Nat → PodMetadata → PodCacheOp
  | removePod : String → PodCacheOp

/-- Apply one pod-cache mutation. -/
def PodCache.applyOp (c : PodCache) : PodCacheOp → PodCache
  | .insertCg k m => c.insert k m
  | .insertIp ip m => c.insertByIp ip m
  | .removePod u => c.removePod u

/-- Run a sequence of pod-cache mutations from the empty cache. -/
def PodCache.runOps (ops : List PodCacheOp) : PodCache :=
  ops.foldl PodCache.applyOp PodCache.empty

/-- All entries currently in the cache, in either map. -/
def PodCache.allEntries (c : PodCache) : List (Nat × PodMetadata) :=
  c.byCgroup ++ c.byIp

/-! ### orb8-agent/src/aggregator.rs -/

/-- `FlowKey` from `aggregator.rs`: the aggregation key.  Attribution
(namespace / pod name) is part of the key. -/
structure FlowKey where
  podNamespace : String
  podName : String
  srcIp : Nat
  dstIp : Nat
  srcPort : Nat
  dstPort : Nat
  protocol : Nat
  direction : Nat
deriving DecidableEq

/-- `FlowStats` from `aggregator.rs`.  `firstSeen`/`lastSeen` are the
`Instant` fields (nanoseconds, supplied as the `now` parameter wherever the
code calls `Instant::now()`); `firstSeenNs`/`lastSeenNs` carry the kernel
timestamps. -/
structure FlowStats where
  bytes : Nat
  packets : Nat
  firstSeen : Nat
  lastSeen : Nat
  firstSeenNs : Nat
  lastSeenNs : Nat
deriving DecidableEq

/-- `FlowStats::new(timestamp_ns, bytes)`: one packet, both instants at `now`,
both kernel timestamps at `timestamp_ns`. -/
def FlowStats.new (now timestampNs bytes : Nat) : FlowStats :=
  { bytes := bytes, packets := 1, firstSeen := now, lastSeen := now,
    firstSeenNs := timestampNs, lastSeenNs := timestampNs }

/-- `FlowStats::update(timestamp_ns, bytes)`: add to the counters (`u64`
arithmetic, hence the `% 2 ^ 64`), move `last_seen` to `now` and overwrite
`last_seen_ns` with the event timestamp.  `first_seen`/`first_seen_ns` are
not touched. -/
def FlowStats.update (s : FlowStats) (now timestampNs bytes : Nat) : FlowStats :=
  { s with bytes := (s.bytes + bytes) % 2 ^ 64,
           packets := (s.packets + 1) % 2 ^ 64,
           lastSeen := now,
           lastSeenNs := timestampNs }

/-- The state owned by a `FlowAggregator`: the flow table and the two
monotonic counters.  (`pod_cache` is passed separately; `flow_timeout` is the
constant below.) -/
structure AggState where
  flows : List (FlowKey × FlowStats)
  eventsProcessed : Nat
  eventsDropped : Nat
deriving DecidableEq

/-- `FlowAggregator::new`: empty table, both counters zero. -/
def aggInit : AggState := ⟨[], 0, 0⟩

/-- `flow_timeout`: `Duration::from_secs(30)`, in nanoseconds. -/
def flowTimeoutNs : Nat := 30 * 1000000000

/-- The metadata resolution inside `FlowAggregator::process_event`: look the
cgroup id up in the pod cache, with fallback `("unknown", "cgroup-<id>")`. -/
def resolvePod (cache : PodCache) (e : NetworkFlowEvent) : String × String :=
  match cache.get e.cgroupId with
  | some meta => (meta.podNamespace, meta.podName)
  | none => ("unknown", "cgroup-" ++ toString e.cgroupId)

/-- The `entry(key).and_modify(update).or_insert_with(new)` step of
`process_event` on the flow table. -/
def upsertFlow (flows : List (FlowKey × FlowStats)) (key : FlowKey)
    (now timestampNs bytes : Nat) : List (FlowKey × FlowStats) :=
  if flows.any (fun p => p.1 = key) then
    flows.map (fun p => if p.1 = key then (p.1, p.2.update now timestampNs bytes) else p)
  else
    (key, FlowStats.new now timestampNs bytes) :: flows

/-- `FlowAggregator::process_event(event)`: bump `events_processed`, resolve
the pod metadata by cgroup id, build the `FlowKey`, upsert the flow table. -/
def processEvent (cache : PodCache) (st : AggState) (e : NetworkFlowEvent)
    (now : Nat) : AggState :=
  let key : FlowKey :=
    { podNamespace := (resolvePod cache e).1, podName := (resolvePod cache e).2,
      srcIp := e.srcIp, dstIp := e.dstIp, srcPort := e.srcPort,
      dstPort := e.dstPort, protocol := e.protocol, direction := e.direction }
  { flows := upsertFlow st.flows key now e.timestampNs e.packetLen,
    eventsProcessed := (st.eventsProcessed + 1) % 2 ^ 64,
    eventsDropped := st.eventsDropped }

/-- `FlowAggregator::get_flows(namespaces)`: snapshot every entry whose
namespace passes the filter (an empty filter passes everything). -/
def getFlows (st : AggState) (namespaces : List String) :
    List (FlowKey × FlowStats) :=
  st.flows.filter (fun p => namespaces.isEmpty || namespaces.contains p.1.podNamespace)

/-- `FlowAggregator::expire_old_flows()`: retain the entries seen after
`now - flow_timeout` and report how many were removed. -/
def expireOldFlows (st : AggState) (now : Nat) : AggState × Nat :=
  let cutoff := now - flowTimeoutNs
  let before := st.flows.length
  let retained := st.flows.filter (fun p => cutoff < p.2.lastSeen)
  ({ st with flows := retained }, before - retained.length)

/-! ### orb8-agent/src/main.rs — the event loop -/

/-- `GRPC_PORT` from `main.rs`: the RPC listen port, also used for
self-traffic filtering. -/
def GRPC_PORT : Nat := 9090

/-- The IP-based enrichment of the broadcast event in the `main.rs` event
loop: ingress prefers the destination-side pod, egress the source side; the
other side is tried next and `("external", "unknown")` closes the chain. -/
def broadcastEnrich (cache : PodCache) (e : NetworkFlowEvent) : String × String :=
  let srcPod := cache.getByIp e.srcIp
  let dstPod := cache.getByIp e.dstIp
  if e.direction = INGRESS then
    ((dstPod.map fun p => (p.podNamespace, p.podName)).or
      (srcPod.map fun p => (p.podNamespace, p.podName))).getD ("external", "unknown")
  else
    ((srcPod.map fun p => (p.podNamespace, p.podName)).or
      (dstPod.map fun p => (p.podNamespace, p.podName))).getD ("external", "unknown")

/-- One aggregator-touching step of the agent: handling one polled packet
event (at `Instant` `now`), or one tick of the expirer task. -/
inductive MainOp where
  | packet : NetworkFlowEvent → Nat → MainOp
  | expire : Nat → MainOp

/-- The effect of one `MainOp` on the aggregator state.  A packet whose source
or destination port equals `GRPC_PORT` is skipped (`continue`) before
`process_event`, exactly as in the `main.rs` event loop. -/
def mainStep (cache : PodCache) (st : AggState) : MainOp → AggState
  | .packet e now =>
    if e.srcPort = GRPC_PORT ∨ e.dstPort = GRPC_PORT then st
    else processEvent cache st e now
  | .expire now => (expireOldFlows st now).1

/-- The aggregator state reached after a sequence of main-loop steps, starting
from `FlowAggregator::new`. -/
def mainRun (cache : PodCache) (ops : List MainOp) : AggState :=
  ops.foldl (mainStep cache) aggInit

/-! ### orb8-agent/src/grpc_server.rs -/

/-- `format_protocol` from `aggregator.rs`. -/
def formatProtocol (p : Nat) : String :=
  match p with
  | 1 => "ICMP"
  | 6 => "TCP"
  | 17 => "UDP"
  | _ => "OTHER"

/-- `format_direction` from `aggregator.rs`. -/
def formatDirection (d : Nat) : String :=
  match d with
  | 0 => "ingress"
  | 1 => "egress"
  | _ => "unknown"

/-- Reinterpretation of a `u64` value as an `i64` (`as i64`). -/
def asI64 (n : Nat) : Int :=
  if n % 2 ^ 64 < 2 ^ 63 then (n % 2 ^ 64 : Int) else (n % 2 ^ 64 : Int) - 2 ^ 64

/-- `QueryFlowsRequest` (proto): namespace filter, pod-name filter, limit. -/
structure QueryFlowsRequest where
  namespaces : List String
  podNames : List String
  limit : Nat
deriving DecidableEq

/-- `NetworkFlow` (proto), as built by `query_flows`. -/
structure NetworkFlow where
  podNamespace : String
  podName : String
  srcIp : List Char
  dstIp : List Char
  srcPort : Nat
  dstPort : Nat
  protocol : String
  direction : String
  bytes : Nat
  packets : Nat
  firstSeenNs : Int
  lastSeenNs : Int
deriving DecidableEq

/-- The per-entry conversion inside `query_flows`. -/
def toNetworkFlow (p : FlowKey × FlowStats) : NetworkFlow :=
  { podNamespace := p.1.podNamespace, podName := p.1.podName,
    srcIp := formatIpv4 p.1.srcIp, dstIp := formatIpv4 p.1.dstIp,
    srcPort := p.1.srcPort, dstPort := p.1.dstPort,
    protocol := formatProtocol p.1.protocol,
    direction := formatDirection p.1.direction,
    bytes := p.2.bytes, packets := p.2.packets,
    firstSeenNs := asI64 p.2.firstSeenNs, lastSeenNs := asI64 p.2.lastSeenNs }

/-- `AgentService::query_flows`: default the limit (0 becomes 1000), snapshot
through `get_flows` with the namespace filter, filter by pod name, convert,
sort by bytes descending (`sort_by(|a, b| b.bytes.cmp(&a.bytes))`, a stable
sort), truncate to the limit. -/
def queryFlows (st : AggState) (req : QueryFlowsRequest) : List NetworkFlow :=
  (((((getFlows st req.namespaces).filter
      (fun p => req.podNames.isEmpty || req.podNames.contains p.1.podName)).map
    toNetworkFlow).mergeSort (fun a b => decide (b.bytes ≤ a.bytes))).take
    (if req.limit = 0 then 1000 else req.limit))

/-- The flows that pass both request filters of `query_flows` (an empty set
imposes no filter), as a single pass over the table: the composition, by
`List.filter_filter`, of the namespace filter inside `get_flows` and the
pod-name filter in `query_flows`. -/
def eligibleFlows (st : AggState) (req : QueryFlowsRequest) : List NetworkFlow :=
  (st.flows.filter (fun p =>
      (req.namespaces.isEmpty || req.namespaces.contains p.1.podNamespace) &&
      (req.podNames.isEmpty || req.podNames.contains p.1.podName))).map
    toNetworkFlow

/-- `AgentStatus` (proto), as built by `get_status`. -/
structure AgentStatus where
  nodeName : String
  version : String
  healthy : Bool
  healthMessage : String
  eventsProcessed : Nat
  eventsDropped : Nat
  podsTracked : Nat
  activeFlows : Nat
  uptimeSeconds : Nat
deriving DecidableEq

/-- `AgentService::get_status`: report the aggregator counters, the pod-cache
size (`as u32`) and the flow count (`as u32`). -/
def getStatus (cache : PodCache) (st : AggState) (nodeName ver : String)
    (uptime : Nat) : AgentStatus :=
  { nodeName := nodeName, version := ver, healthy := true, healthMessage := "OK",
    eventsProcessed := st.eventsProcessed,
    eventsDropped := st.eventsDropped,
    podsTracked := cache.byCgroup.length % 2 ^ 32,
    activeFlows := st.flows.length % 2 ^ 32,
    uptimeSeconds := uptime }

/-! ### orb8-agent/src/probe_loader.rs — poll_events -/

/-- `MAX_BATCH_SIZE` from `poll_events`. -/
def MAX_BATCH_SIZE : Nat := 1024

/-- `mem::size_of::<NetworkFlowEvent>()`: 32 bytes (checked by a compile-time
assertion in `orb8-common`). -/
def EVENT_SIZE : Nat := 32

/-- Little-endian value of `n` bytes at `off` in a byte list. -/
def readLEAt (b : List Nat) (off n : Nat) : Nat :=
  leVal ((b.drop off).take n)

/-- The `ptr::read_unaligned` of a 32-byte ring item as a `NetworkFlowEvent`:
a native-endian (little-endian host) field-by-field read at the `#[repr(C)]`
offsets 0, 8, 16, 20, 24, 26, 28, 29, 30. -/
def decodeEvent (b : List Nat) : NetworkFlowEvent :=
  { timestampNs := readLEAt b 0 8, cgroupId := readLEAt b 8 8,
    srcIp := readLEAt b 16 4, dstIp := readLEAt b 20 4,
    srcPort := readLEAt b 24 2, dstPort := readLEAt b 26 2,
    protocol := readLEAt b 28 1, direction := readLEAt b 29 1,
    packetLen := readLEAt b 30 2 }

/-- The drain loop of `poll_events`: `events` is the `Vec` accumulated so far
and `malformed` counts the wrong-size items warned about and skipped.  The
batch-cap check happens after the next item has been pulled from the ring,
exactly as in the source. -/
def pollGo : List (List Nat) → List NetworkFlowEvent → Nat →
    List NetworkFlowEvent × Nat
  | [], events, malformed => (events, malformed)
  | item :: rest, events, malformed =>
    if MAX_BATCH_SIZE ≤ events.length then (events, malformed)
    else if item.length = EVENT_SIZE then
      pollGo rest (events ++ [decodeEvent item]) malformed
    else
      pollGo rest events (malformed + 1)

/-- `poll_events(ring_buf)`: drain the pending ring items into a batch,
returning the decoded events and the number of malformed items skipped. -/
def pollEvents (items : List (List Nat)) : List NetworkFlowEvent × Nat :=
  pollGo items [] 0

/-! ### Concrete instances used by the witnesses and counterexamples -/

/-- A concrete 38-byte IPv4/TCP packet (EtherType `0x0800`, IHL 5, protocol 6,
`10.0.0.1:80 → 10.0.0.2:5000`) for the C3 witness. -/
def ctxC3 : TcCtx :=
  { data := [0, 0, 0, 0, 0, 0, 0, 0, 0, 0, 0, 0, 8, 0,
             69, 0, 0, 24, 0, 0, 0, 0, 64, 6, 0, 0, 10, 0, 0, 1, 10, 0, 0, 2,
             0, 80, 19, 136],
    len := 38 }

/-- First event at the C1 failing input: kernel timestamp 100. -/
def e1C1 : NetworkFlowEvent := ⟨100, 7, 1, 2, 3, 4, 6, 0, 10⟩

/-- Second event at the C1 failing input: same flow key, older kernel
timestamp 50. -/
def e2C1 : NetworkFlowEvent := ⟨50, 7, 1, 2, 3, 4, 6, 0, 10⟩

/-- The C2 scenario event: `cgroup_id = 0`, TCP `1 → 2` (no cached IPs). -/
def eC2 : NetworkFlowEvent := ⟨0, 0, 1, 2, 3, 4, 6, 0, 10⟩

/-- An ordinary event (ports 80 → 5000) for the C6 witness. -/
def eC6 : NetworkFlowEvent := ⟨10, 0, 1, 2, 80, 5000, 6, 0, 40⟩

/-- The flow-table entry created by the C6 witness event. -/
def pC6 : FlowKey × FlowStats :=
  (⟨"unknown", "cgroup-0", 1, 2, 80, 5000, 6, 0⟩, FlowStats.new 3 10 40)

/-- A cached container of the pod with UID `u1` (C4 witness data). -/
def mC4a : PodMetadata := ⟨"default", "nginx", "u1", "nginx", "c1", none⟩

/-- A flow table with two namespaces, for the C5 witness. -/
def stC5 : AggState :=
  ⟨[(⟨"a", "p1", 1, 2, 80, 443, 6, 0⟩, ⟨100, 1, 0, 0, 5, 5⟩),
    (⟨"b", "p2", 1, 2, 80, 443, 6, 0⟩, ⟨300, 1, 0, 0, 5, 5⟩),
    (⟨"a", "p3", 3, 4, 81, 444, 17, 1⟩, ⟨200, 2, 0, 0, 6, 6⟩)], 4, 0⟩

/-- The query `QueryFlows(["a"], [], 0)`, for the C5 witness. -/
def reqC5 : QueryFlowsRequest := ⟨["a"], [], 0⟩

/-- Two ring items — one well-formed (32 bytes) and one malformed (5 bytes) —
for the C9 witness. -/
def itemsC9 : List (List Nat) := [List.replicate 32 7, List.replicate 5 0]

/-- A cached container of a different pod, UID `u2` (C4 witness data). -/
def mC4b : PodMetadata := ⟨"other", "redis", "u2", "redis", "c3", none⟩

/-! ## Helper lemmas -/

/-- Splitting a dot-free character list yields that list as the only part. -/
theorem splitDot_of_not_mem (x : List Char) (h : '.' ∉ x) : splitDot x = [x] := by
  induction x with
  | nil => rfl
  | cons c rest ih =>
    have hc : ¬c = '.' := fun hc => h (hc ▸ List.mem_cons_self c rest)
    have hr : '.' ∉ rest := fun hm => h (List.mem_cons_of_mem c hm)
    simp only [splitDot, if_neg hc, ih hr]

/-- Splitting peels off a dot-free first part. -/
theorem splitDot_append (x rest : List Char) (h : '.' ∉ x) :
    splitDot (x ++ '.' :: rest) = x :: splitDot rest := by
  induction x with
  | nil => simp [splitDot]
  | cons c x' ih =>
    have hc : ¬c = '.' := fun hc => h (hc ▸ List.mem_cons_self c x')
    have hx : '.' ∉ x' := fun hm => h (List.mem_cons_of_mem c hm)
    simp only [List.cons_append, splitDot, if_neg hc, List.append_eq, ih hx]

/-- For every octet value, `str::parse::<u8>` inverts the decimal rendering,
and the rendering is dot-free.  (Checked by evaluation over all 256 octets.) -/
theorem parseU8_toDigits (a : Fin 256) :
    parseU8 (Nat.toDigits 10 a.val) = some a.val ∧ '.' ∉ Nat.toDigits 10 a.val := by
  revert a
  decide

/-- Whatever `try_network_probe` returns, the verdict is `TC_ACT_OK`, and a
record is submitted only on the full IPv4 path: packet length at least 34,
EtherType `0x0800` at offset 12, and IHL low nibble times 4 at least 20. -/
theorem tryNetworkProbe_spec (ctx : TcCtx) (dir ts : Nat) (rsv : Bool)
    (r : Int × Option NetworkFlowEvent) (h : tryNetworkProbe ctx dir ts rsv = some r) :
    r.1 = TC_ACT_OK ∧
    ∀ ev, r.2 = some ev →
      ETH_HLEN + IP_HLEN_MIN ≤ ctx.len ∧
      readBE16 ctx 12 = some ETH_P_IP ∧
      ∃ vihl, readByte ctx ETH_HLEN = some vihl ∧ IP_HLEN_MIN ≤ vihl % 16 * 4 := by
  unfold tryNetworkProbe at h
  split at h
  · cases h
    exact ⟨rfl, fun ev hev => by simp at hev⟩
  · rename_i hlen
    split at h
    · cases h
    · rename_i et hE
      split at h
      · cases h
        exact ⟨rfl, fun ev hev => by simp at hev⟩
      · rename_i het
        split at h
        · cases h
        · rename_i vihl hV
          split at h
          · cases h
            exact ⟨rfl, fun ev hev => by simp at hev⟩
          · rename_i hih
            split at h
            · rename_i proto srcIp dstIp hP hS hD
              split at h
              · cases h
              · cases h
                refine ⟨rfl, fun ev hev => ⟨by omega, ?_, vihl, hV, by omega⟩⟩
                rw [hE]
                congr 1
                omega
            · cases h

/-- Either classifier entry point (the `match` wrapper around
`try_network_probe`) passes the packet and submits only on the IPv4 path. -/
theorem networkProbeEntry_spec (ctx : TcCtx) (dir ts : Nat) (rsv : Bool) :
    (match tryNetworkProbe ctx dir ts rsv with
      | some r => r
      | none => ((TC_ACT_OK : Int), (none : Option NetworkFlowEvent))).1 = TC_ACT_OK ∧
    ∀ ev, (match tryNetworkProbe ctx dir ts rsv with
      | some r => r
      | none => ((TC_ACT_OK : Int), (none : Option NetworkFlowEvent))).2 = some ev →
      ETH_HLEN + IP_HLEN_MIN ≤ ctx.len ∧
      readBE16 ctx 12 = some ETH_P_IP ∧
      ∃ vihl, readByte ctx ETH_HLEN = some vihl ∧ IP_HLEN_MIN ≤ vihl % 16 * 4 := by
  cases h : tryNetworkProbe ctx dir ts rsv with
  | none => exact ⟨rfl, fun ev hev => by simp at hev⟩
  | some r => exact tryNetworkProbe_spec ctx dir ts rsv r h

/-! ## Claims -/

/-- C3: for every packet and both entry points, the classifier returns
`TC_ACT_OK` regardless of observation outcome, and it submits a ring record
only when the packet length is at least 14 + 20, the EtherType at offset 12 is
`0x0800`, and the low nibble of the first IP byte times 4 is at least 20. -/
theorem claim_C3_classifier_pass_and_gate (ctx : TcCtx) (ts : Nat) (rsv : Bool) :
    (networkProbe ctx ts rsv).1 = TC_ACT_OK ∧
    (networkProbeEgress ctx ts rsv).1 = TC_ACT_OK ∧
    ∀ ev, ((networkProbe ctx ts rsv).2 = some ev ∨
        (networkProbeEgress ctx ts rsv).2 = some ev) →
      ETH_HLEN + IP_HLEN_MIN ≤ ctx.len ∧
      readBE16 ctx 12 = some ETH_P_IP ∧
      ∃ vihl, readByte ctx ETH_HLEN = some vihl ∧ IP_HLEN_MIN ≤ vihl % 16 * 4 := by
  obtain ⟨i1, i2⟩ := networkProbeEntry_spec ctx INGRESS ts rsv
  obtain ⟨g1, g2⟩ := networkProbeEntry_spec ctx EGRESS ts rsv
  exact ⟨i1, g1, fun ev hev => hev.elim (i2 ev) (g2 ev)⟩

/-- C3 witness: on the concrete IPv4/TCP packet the ingress entry point passes
the packet, actually emits a record, and the gating conditions hold. -/
theorem claim_C3_witness :
    (networkProbe ctxC3 123 true).1 = TC_ACT_OK ∧
    (networkProbeEgress ctxC3 123 true).1 = TC_ACT_OK ∧
    (ETH_HLEN + IP_HLEN_MIN ≤ ctxC3.len ∧
      readBE16 ctxC3 12 = some ETH_P_IP ∧
      ∃ vihl, readByte ctxC3 ETH_HLEN = some vihl ∧ IP_HLEN_MIN ≤ vihl % 16 * 4) :=
  ⟨(claim_C3_classifier_pass_and_gate ctxC3 123 true).1,
   (claim_C3_classifier_pass_and_gate ctxC3 123 true).2.1,
   (claim_C3_classifier_pass_and_gate ctxC3 123 true).2.2
     { timestampNs := 123, cgroupId := 0, srcIp := 16777226, dstIp := 33554442,
       srcPort := 80, dstPort := 5000, protocol := 6, direction := 0,
       packetLen := 38 }
     (Or.inl (by decide))⟩

/-- C1 (failing-input evaluation): folding two same-key events with kernel
timestamps 100 then 50 through `process_event` yields `bytes = 20` and
`packets = 2` as the claim demands, but `first_seen_ns = 100 ≠ min = 50` and
`last_seen_ns = 50 ≠ max = 100`: the older update regressed the stored
`last_seen_ns` from 100 to 50. -/
theorem claim_C1_last_seen_regression :
    ((processEvent PodCache.empty (processEvent PodCache.empty aggInit e1C1 1) e2C1 2).flows.map
      (fun p => (p.2.bytes, p.2.packets, p.2.firstSeenNs, p.2.lastSeenNs))) =
      [(20, 2, 100, 50)] ∧
    ((processEvent PodCache.empty aggInit e1C1 1).flows.map
      (fun p => p.2.lastSeenNs)) = [100] ∧
    Nat.min 100 50 = 50 ∧ Nat.max 100 50 = 100 := by
  decide

/-- C2 counterexample: processed against an empty pod cache, the event with
`cgroup_id = 0` produces a flow whose key carries
`("unknown", "cgroup-0")`, not `("external", "unknown")` as claimed. -/
theorem claim_C2_counterexample :
    ((processEvent PodCache.empty aggInit eC2 0).flows.map
      (fun p => (p.1.podNamespace, p.1.podName))) = [("unknown", "cgroup-0")] ∧
    (("unknown", "cgroup-0") : String × String) ≠ ("external", "unknown") := by
  decide

/-- C2 (amended): `process_event` resolves the flow key by cgroup-id lookup
alone with fallback `("unknown", "cgroup-<id>")`; the direction-driven pod-IP
chain ending in `("external", "unknown")` is applied by the main event loop to
the broadcast event only.  Hence, against an empty pod cache, an event with
`cgroup_id = 0` yields a flow key named `("unknown", "cgroup-0")` while its
broadcast enrichment is `("external", "unknown")`. -/
theorem claim_C2_amended (e : NetworkFlowEvent) (now : Nat) (h : e.cgroupId = 0) :
    ((processEvent PodCache.empty aggInit e now).flows.map
      (fun p => (p.1.podNamespace, p.1.podName))) = [("unknown", "cgroup-0")] ∧
    broadcastEnrich PodCache.empty e = ("external", "unknown") := by
  constructor
  · have hres : resolvePod PodCache.empty e = ("unknown", "cgroup-0") := by
      simp only [resolvePod, PodCache.get, PodCache.empty, assocGet, List.find?_nil,
        Option.map_none, h]
      decide
    simp [processEvent, upsertFlow, aggInit, hres]
  · simp only [broadcastEnrich, PodCache.getByIp, PodCache.empty, assocGet,
      List.find?_nil, Option.map_none, Option.map, Option.or, Option.getD]
    split <;> rfl

/-- C2 witness: the amended statement applied at the concrete scenario event. -/
theorem claim_C2_witness :
    ((processEvent PodCache.empty aggInit eC2 0).flows.map
      (fun p => (p.1.podNamespace, p.1.podName))) = [("unknown", "cgroup-0")] ∧
    broadcastEnrich PodCache.empty eC2 = ("external", "unknown") :=
  claim_C2_amended eC2 0 (by decide)

/-- C4: after a sequence of pod-cache operations whose last step is
`remove_pod u`, no entry remaining in either map carries `pod_uid = u`. -/
theorem claim_C4_remove_pod_sweeps (ops : List PodCacheOp) (u : String) :
    ∀ p ∈ (PodCache.runOps (ops ++ [PodCacheOp.removePod u])).allEntries,
      p.2.podUid ≠ u := by
  intro p hp
  have hrun : PodCache.runOps (ops ++ [PodCacheOp.removePod u]) =
      (PodCache.runOps ops).removePod u := by
    simp [PodCache.runOps, List.foldl_append, PodCache.applyOp]
  rw [hrun] at hp
  simp only [PodCache.allEntries, PodCache.removePod, List.mem_append] at hp
  rcases hp with h | h
  · simpa using (List.mem_filter.mp h).2
  · simpa using (List.mem_filter.mp h).2

/-- Every entry of an upserted flow table either has the upserted key or
inherits its key from the previous table. -/
theorem mem_upsertFlow (flows : List (FlowKey × FlowStats)) (key : FlowKey)
    (now ts len : Nat) (q : FlowKey × FlowStats)
    (hq : q ∈ upsertFlow flows key now ts len) :
    q.1 = key ∨ ∃ p ∈ flows, q.1 = p.1 := by
  unfold upsertFlow at hq
  split at hq
  · obtain ⟨p, hp, hfp⟩ := List.mem_map.mp hq
    by_cases hpk : p.1 = key
    · rw [if_pos hpk] at hfp
      exact Or.inl (by rw [← hfp]; exact hpk)
    · rw [if_neg hpk] at hfp
      exact Or.inr ⟨p, hp, by rw [← hfp]⟩
  · rcases List.mem_cons.mp hq with h | h
    · exact Or.inl (by rw [h])
    · exact Or.inr ⟨q, h, rfl⟩

/-- One main-loop step preserves "no flow key uses the gRPC port". -/
theorem mainStep_ports (cache : PodCache) (st : AggState) (op : MainOp)
    (hst : ∀ p ∈ st.flows, p.1.srcPort ≠ GRPC_PORT ∧ p.1.dstPort ≠ GRPC_PORT) :
    ∀ p ∈ (mainStep cache st op).flows,
      p.1.srcPort ≠ GRPC_PORT ∧ p.1.dstPort ≠ GRPC_PORT := by
  cases op with
  | packet e now =>
    by_cases hfilt : e.srcPort = GRPC_PORT ∨ e.dstPort = GRPC_PORT
    · simpa [mainStep, hfilt] using hst
    · simp only [mainStep, if_neg hfilt]
      intro p hp
      push_neg at hfilt
      rcases mem_upsertFlow st.flows _ now e.timestampNs e.packetLen p
          (by simpa [processEvent] using hp) with h | ⟨p', hp', he⟩
      · rw [h]
        exact ⟨hfilt.1, hfilt.2⟩
      · rw [he]
        exact hst p' hp'
  | expire now =>
    intro p hp
    exact hst p (List.mem_filter.mp hp).1

/-- Folding main-loop steps preserves "no flow key uses the gRPC port". -/
theorem mainFold_ports (cache : PodCache) (ops : List MainOp) :
    ∀ st : AggState,
      (∀ p ∈ st.flows, p.1.srcPort ≠ GRPC_PORT ∧ p.1.dstPort ≠ GRPC_PORT) →
      ∀ p ∈ (ops.foldl (mainStep cache) st).flows,
        p.1.srcPort ≠ GRPC_PORT ∧ p.1.dstPort ≠ GRPC_PORT := by
  induction ops with
  | nil => exact fun st h => h
  | cons op rest ih => exact fun st h => ih _ (mainStep_ports cache st op h)

/-- C6: the main loop discards events whose source or destination port is the
RPC listen port before they reach the aggregator, so in every reachable
aggregator state no snapshotted flow uses port 9090 on either side. -/
theorem claim_C6_self_traffic_suppressed (cache : PodCache) (ops : List MainOp)
    (namespaces : List String) (p : FlowKey × FlowStats)
    (hp : p ∈ getFlows (mainRun cache ops) namespaces) :
    p.1.srcPort ≠ GRPC_PORT ∧ p.1.dstPort ≠ GRPC_PORT :=
  mainFold_ports cache ops aggInit (by simp [aggInit]) p (List.mem_filter.mp hp).1

/-- C6 witness: after processing one ordinary event, the flow it created is in
the snapshot and its ports differ from 9090. -/
theorem claim_C6_witness :
    pC6 ∈ getFlows (mainRun PodCache.empty [MainOp.packet eC6 3]) [] ∧
    pC6.1.srcPort ≠ GRPC_PORT ∧ pC6.1.dstPort ≠ GRPC_PORT :=
  ⟨by decide,
   claim_C6_self_traffic_suppressed PodCache.empty [MainOp.packet eC6 3] [] pC6
     (by decide)⟩

/-- C8: the expirer is idempotent at a fixed instant — a second sweep removes
nothing and reports zero expired — and each sweep retains exactly the entries
with `last_seen > now - flow_timeout`. -/
theorem claim_C8_expire_idempotent (st : AggState) (now : Nat) :
    (expireOldFlows (expireOldFlows st now).1 now).1 = (expireOldFlows st now).1 ∧
    (expireOldFlows (expireOldFlows st now).1 now).2 = 0 ∧
    (expireOldFlows st now).1.flows =
      st.flows.filter (fun p => now - flowTimeoutNs < p.2.lastSeen) := by
  obtain ⟨flows, ep, ed⟩ := st
  refine ⟨?_, ?_, rfl⟩
  · simp [expireOldFlows, List.filter_filter]
  · simp [expireOldFlows, List.filter_filter]

/-- `events_dropped` is untouched by every main-loop step. -/
theorem mainStep_dropped (cache : PodCache) (st : AggState) (op : MainOp) :
    (mainStep cache st op).eventsDropped = st.eventsDropped := by
  cases op with
  | packet e now =>
    simp only [mainStep]
    split
    · rfl
    · rfl
  | expire now => rfl

/-- `events_dropped` is untouched by any fold of main-loop steps. -/
theorem mainFold_dropped (cache : PodCache) (ops : List MainOp) :
    ∀ st : AggState, (ops.foldl (mainStep cache) st).eventsDropped = st.eventsDropped := by
  induction ops with
  | nil => exact fun _ => rfl
  | cons op rest ih =>
    intro st
    rw [List.foldl_cons, ih, mainStep_dropped]

/-- C10: in every reachable agent state the `events_dropped` counter is 0 —
nothing in the aggregator, the poller path, or the expirer increments it — so
`get_status` always reports `events_dropped = 0`. -/
theorem claim_C10_events_dropped_zero (cache : PodCache) (ops : List MainOp)
    (nodeName ver : String) (uptime : Nat) :
    (getStatus cache (mainRun cache ops) nodeName ver uptime).eventsDropped = 0 := by
  show (mainRun cache ops).eventsDropped = 0
  rw [mainRun, mainFold_dropped]
  rfl

/-- C4 witness: insert two pods, remove pod `u1`; the surviving entry is the
`u2` one and its UID differs from `u1`. -/
theorem claim_C4_witness :
    (2, mC4b) ∈ (PodCache.runOps
      ([PodCacheOp.insertCg 1 mC4a, PodCacheOp.insertCg 2 mC4b] ++
        [PodCacheOp.removePod "u1"])).allEntries ∧
    mC4b.podUid ≠ "u1" :=
  ⟨by decide,
   claim_C4_remove_pod_sweeps
     [PodCacheOp.insertCg 1 mC4a, PodCacheOp.insertCg 2 mC4b] "u1" (2, mC4b)
     (by decide)⟩

/-- C7: for every valid dotted-quad string (four canonical decimal octets
joined by dots), `parse_ipv4` succeeds, its value packs the first octet into
the least-significant byte of the `u32`, and `format_ipv4` maps the value back
to the original string. -/
theorem claim_C7_parse_format_roundtrip (a b c d : Nat)
    (ha : a ≤ 255) (hb : b ≤ 255) (hc : c ≤ 255) (hd : d ≤ 255) :
    parseIpv4 (dottedQuad a b c d) = some (a + 256 * b + 65536 * c + 16777216 * d) ∧
    formatIpv4 (a + 256 * b + 65536 * c + 16777216 * d) = dottedQuad a b c d ∧
    (a + 256 * b + 65536 * c + 16777216 * d) % 256 = a := by
  have pa : parseU8 (Nat.toDigits 10 a) = some a := (parseU8_toDigits ⟨a, by omega⟩).1
  have da : '.' ∉ Nat.toDigits 10 a := (parseU8_toDigits ⟨a, by omega⟩).2
  have pb : parseU8 (Nat.toDigits 10 b) = some b := (parseU8_toDigits ⟨b, by omega⟩).1
  have db : '.' ∉ Nat.toDigits 10 b := (parseU8_toDigits ⟨b, by omega⟩).2
  have pc : parseU8 (Nat.toDigits 10 c) = some c := (parseU8_toDigits ⟨c, by omega⟩).1
  have dc : '.' ∉ Nat.toDigits 10 c := (parseU8_toDigits ⟨c, by omega⟩).2
  have pd : parseU8 (Nat.toDigits 10 d) = some d := (parseU8_toDigits ⟨d, by omega⟩).1
  have dd : '.' ∉ Nat.toDigits 10 d := (parseU8_toDigits ⟨d, by omega⟩).2
  have hassoc : dottedQuad a b c d =
      Nat.toDigits 10 a ++ '.' :: (Nat.toDigits 10 b ++
        '.' :: (Nat.toDigits 10 c ++ '.' :: Nat.toDigits 10 d)) := by
    simp [dottedQuad, List.append_assoc]
  have hsplit : splitDot (dottedQuad a b c d) =
      [Nat.toDigits 10 a, Nat.toDigits 10 b, Nat.toDigits 10 c, Nat.toDigits 10 d] := by
    rw [hassoc, splitDot_append _ _ da, splitDot_append _ _ db, splitDot_append _ _ dc,
      splitDot_of_not_mem _ dd]
  refine ⟨?_, ?_, by omega⟩
  · unfold parseIpv4
    rw [hsplit]
    simp [List.filterMap_cons, pa, pb, pc, pd]
  · have h1 : (a + 256 * b + 65536 * c + 16777216 * d) % 256 = a := by omega
    have h2 : (a + 256 * b + 65536 * c + 16777216 * d) / 256 % 256 = b := by omega
    have h3 : (a + 256 * b + 65536 * c + 16777216 * d) / 65536 % 256 = c := by omega
    have h4 : (a + 256 * b + 65536 * c + 16777216 * d) / 16777216 % 256 = d := by omega
    unfold formatIpv4 dottedQuad
    rw [h1, h2, h3, h4]

/-- C7 witness: the round trip at the concrete address `10.0.0.5`
(value `0x0500000A`). -/
theorem claim_C7_witness :
    parseIpv4 (dottedQuad 10 0 0 5) =
      some (10 + 256 * 0 + 65536 * 0 + 16777216 * 5) ∧
    formatIpv4 (10 + 256 * 0 + 65536 * 0 + 16777216 * 5) = dottedQuad 10 0 0 5 ∧
    (10 + 256 * 0 + 65536 * 0 + 16777216 * 5) % 256 = 10 :=
  claim_C7_parse_format_roundtrip 10 0 0 5 (by decide) (by decide) (by decide)
    (by decide)

/-- `query_flows` is the truncation of the stable descending-by-bytes sort of
the doubly filtered snapshot. -/
theorem queryFlows_eq (st : AggState) (req : QueryFlowsRequest) :
    queryFlows st req =
      ((eligibleFlows st req).mergeSort
        (fun a b => decide (b.bytes ≤ a.bytes))).take
        (if req.limit = 0 then 1000 else req.limit) := by
  unfold queryFlows eligibleFlows getFlows
  rw [List.filter_filter, List.filter_congr (fun a _ => Bool.and_comm _ _)]

/-- C5: the `QueryFlows` response contains exactly the flows passing the
namespace and pod-name filters (empty sets impose no filter), sorted by
cumulative bytes descending, truncated to the limit, with limit 0 treated
as 1000. -/
theorem claim_C5_query_flows (st : AggState) (req : QueryFlowsRequest) :
    List.Pairwise (fun a b => b.bytes ≤ a.bytes) (queryFlows st req) ∧
    (queryFlows st req).length ≤ (if req.limit = 0 then 1000 else req.limit) ∧
    (∀ f ∈ queryFlows st req, f ∈ eligibleFlows st req) ∧
    ((eligibleFlows st req).length ≤ (if req.limit = 0 then 1000 else req.limit) →
      (queryFlows st req).Perm (eligibleFlows st req)) := by
  have hq := queryFlows_eq st req
  have htrans : ∀ a b c : NetworkFlow,
      decide (b.bytes ≤ a.bytes) = true → decide (c.bytes ≤ b.bytes) = true →
      decide (c.bytes ≤ a.bytes) = true := by
    intro a b c h1 h2
    simp only [decide_eq_true_eq] at *
    exact le_trans h2 h1
  have htot : ∀ a b : NetworkFlow,
      (decide (b.bytes ≤ a.bytes) || decide (a.bytes ≤ b.bytes)) = true := by
    intro a b
    rcases Nat.le_total a.bytes b.bytes with h | h <;> simp [h]
  have hsorted := List.sorted_mergeSort htrans htot (eligibleFlows st req)
  refine ⟨?_, ?_, ?_, ?_⟩
  · rw [hq]
    exact (List.Pairwise.sublist (List.take_sublist _ _) hsorted).imp
      fun h => of_decide_eq_true h
  · rw [hq, List.length_take]
    exact inf_le_left
  · intro f hf
    rw [hq] at hf
    exact (List.mergeSort_perm _ _).subset (List.take_subset _ _ hf)
  · intro hlen
    rw [hq, List.take_of_length_le]
    · exact List.mergeSort_perm _ _
    · rw [(List.mergeSort_perm _ _).length_eq]
      exact hlen

/-- C5 witness: on the concrete two-namespace table with `QueryFlows(["a"],
[], 0)`, the filtered snapshot fits the defaulted limit and the response is a
permutation of exactly the namespace-"a" flows. -/
theorem claim_C5_witness :
    (queryFlows stC5 reqC5).Perm (eligibleFlows stC5 reqC5) :=
  (claim_C5_query_flows stC5 reqC5).2.2.2 (by decide)

/-- The drain loop never grows the batch beyond `max events.length 1024`. -/
theorem pollGo_length (items : List (List Nat)) :
    ∀ (events : List NetworkFlowEvent) (malformed : Nat),
      (pollGo items events malformed).1.length ≤
        max events.length MAX_BATCH_SIZE := by
  induction items with
  | nil => exact fun ev m => le_max_left _ _
  | cons item rest ih =>
    intro ev m
    simp only [pollGo]
    split
    · exact le_max_left _ _
    · rename_i hcap
      split
      · refine le_trans (ih _ _) ?_
        simp only [List.length_append, List.length_singleton, MAX_BATCH_SIZE] at *
        omega
      · exact ih _ _

/-- Every event the drain loop returns and did not start with decodes a
well-formed (32-byte) item of the input. -/
theorem pollGo_mem (items : List (List Nat)) :
    ∀ (events : List NetworkFlowEvent) (malformed : Nat) (ev : NetworkFlowEvent),
      ev ∈ (pollGo items events malformed).1 →
      ev ∈ events ∨ ∃ item ∈ items, item.length = EVENT_SIZE ∧ ev = decodeEvent item := by
  induction items with
  | nil => exact fun evs m ev h => Or.inl h
  | cons item rest ih =>
    intro evs m ev h
    simp only [pollGo] at h
    split at h
    · exact Or.inl h
    · rename_i hcap
      split at h
      · rename_i hsz
        rcases ih _ _ ev h with h' | ⟨it, hit, hsit, hdec⟩
        · rcases List.mem_append.mp h' with h'' | h''
          · exact Or.inl h''
          · exact Or.inr ⟨item, List.mem_cons_self _ _, hsz, by simpa using h''⟩
        · exact Or.inr ⟨it, List.mem_cons_of_mem _ hit, hsit, hdec⟩
      · rcases ih _ _ ev h with h' | ⟨it, hit, hsit, hdec⟩
        · exact Or.inl h'
        · exact Or.inr ⟨it, List.mem_cons_of_mem _ hit, hsit, hdec⟩

/-- Below the batch cap, the drain loop returns exactly the decoded
well-formed items, in order, and counts exactly the malformed ones. -/
theorem pollGo_no_cap (items : List (List Nat)) :
    ∀ (events : List NetworkFlowEvent) (malformed : Nat),
      events.length + items.length ≤ MAX_BATCH_SIZE →
      pollGo items events malformed =
        (events ++ (items.filter (fun i => i.length == EVENT_SIZE)).map decodeEvent,
          malformed + (items.filter (fun i => i.length ≠ EVENT_SIZE)).length) := by
  induction items with
  | nil => intro evs m h; simp [pollGo]
  | cons item rest ih =>
    intro evs m h
    have hcap : ¬ MAX_BATCH_SIZE ≤ evs.length := by
      simp only [List.length_cons] at h
      omega
    simp only [pollGo, if_neg hcap]
    by_cases hsz : item.length = EVENT_SIZE
    · rw [if_pos hsz, ih _ _ (by simp at h ⊢; omega)]
      simp [hsz, List.filter_cons, List.append_assoc]
    · rw [if_neg hsz, ih _ _ (by simp at h; omega)]
      have hfilA : List.filter (fun i => i.length == EVENT_SIZE) (item :: rest) =
          List.filter (fun i => i.length == EVENT_SIZE) rest := by
        simp [List.filter_cons, hsz]
      have hfilB : List.filter (fun i => i.length ≠ EVENT_SIZE) (item :: rest) =
          item :: List.filter (fun i => i.length ≠ EVENT_SIZE) rest := by
        simp [List.filter_cons, hsz]
      rw [hfilA, hfilB]
      refine Prod.ext rfl ?_
      simp only [List.length_cons]
      omega

/-- C9: a single `poll_events` call returns at most 1024 records; every
returned record decodes a 32-byte ring item, so wrong-size items are never
returned; and below the batch cap the wrong-size items are exactly counted
and skipped. -/
theorem claim_C9_poll_batch (items : List (List Nat)) :
    (pollEvents items).1.length ≤ MAX_BATCH_SIZE ∧
    (∀ ev ∈ (pollEvents items).1,
      ∃ item ∈ items, item.length = EVENT_SIZE ∧ ev = decodeEvent item) ∧
    (items.length ≤ MAX_BATCH_SIZE →
      (pollEvents items).1 =
        (items.filter (fun i => i.length == EVENT_SIZE)).map decodeEvent ∧
      (pollEvents items).2 =
        (items.filter (fun i => i.length ≠ EVENT_SIZE)).length) := by
  refine ⟨?_, ?_, ?_⟩
  · have h := pollGo_length items [] 0
    simpa [pollEvents] using h
  · intro ev hev
    rcases pollGo_mem items [] 0 ev (by simpa [pollEvents] using hev) with h | h
    · simp at h
    · exact h
  · intro hlen
    have h := pollGo_no_cap items [] 0 (by simpa using hlen)
    constructor
    · have h1 := congrArg Prod.fst h
      simpa [pollEvents] using h1
    · have h2 := congrArg Prod.snd h
      simpa [pollEvents] using h2

/-- C9 witness: on one well-formed and one malformed item, `poll_events`
returns exactly the decoded well-formed item and counts one malformed skip. -/
theorem claim_C9_witness :
    (pollEvents itemsC9).1 =
      (itemsC9.filter (fun i => i.length == EVENT_SIZE)).map decodeEvent ∧
    (pollEvents itemsC9).2 =
      (itemsC9.filter (fun i => i.length ≠ EVENT_SIZE)).length :=
  (claim_C9_poll_batch itemsC9).2.2 (by decide)

end Orb8
